import Mathlib

/-!
# Custom Field Resolution & Select-Option Matching Engine — verification

Shallow embedding of the lead custom-field update core of the repository
(`updateLeadCustomFields` in the leads write module, together with the
helpers it calls from the leads read module: `getLeadCustomFields`,
`searchLeadCustomField`, `getLeadCustomFieldsMetadata`,
`getSelectFieldOptions`).

Modelling conventions:
* JavaScript strings are modelled by Lean `String`, with the string
  operations of the source (`toLowerCase`, `trim`, `includes`, the
  regex replaces and splits) given explicit structurally-recursive
  definitions over `List Char`, accurate on the ASCII fragment (the
  source's regex classes `\w` and `\s` are themselves ASCII-centric).
* The external transport is modelled by an `Env` record holding the
  outcome of each remote read/write the batch can perform; fetch counts
  are threaded explicitly so that "how many times was the catalog
  fetched" is an observable of the model.
* `Number(key)` parsing of a field key is modelled by an oracle
  `parsed : Option Int` carried with the key: `some n` when the JS
  parse yields the integer `n`, `none` when it yields `NaN`
  (non-integer parses such as `"3.5"` are outside the model's domain).
-/

/-- Model of `s.toLowerCase()` of the source, on the ASCII fragment. -/
def toLowerChars (s : String) : List Char :=
  s.toList.map Char.toLower

/-- Model of `trim()` on a character list: drop leading and trailing whitespace. -/
def trimChars (l : List Char) : List Char :=
  ((l.dropWhile Char.isWhitespace).reverse.dropWhile Char.isWhitespace).reverse

/-- Boolean test: the list `needle` occurs at the head of `hay`. -/
def leadsWith : List Char → List Char → Bool
  | [], _ => true
  | _ :: _, [] => false
  | a :: as, b :: bs => a == b && leadsWith as bs

/-- Model of `hay.includes(needle)` of the source: `needle` occurs somewhere
inside `hay` (an empty needle is always contained, as in JS). -/
def occursIn (needle : List Char) : List Char → Bool
  | [] => needle.isEmpty
  | c :: t => leadsWith needle (c :: t) || occursIn needle t

/-- One character step of the source's `replace(/[^\w\s]/g, ' ')`:
word characters (`[A-Za-z0-9_]`) and whitespace survive, every other
character becomes a space. -/
def replNonWord (c : Char) : Char :=
  if c.isAlphanum || c == '_' || c.isWhitespace then c else ' '

/-- Maximal whitespace-free runs of a character list, in order — the
word list that `split(/\s+/).filter(nonempty)` produces. -/
def wordsOf (l : List Char) : List (List Char) :=
  let p := l.foldr
    (fun c (st : List Char × List (List Char)) =>
      if c.isWhitespace then ([], if st.1.isEmpty then st.2 else st.1 :: st.2)
      else (c :: st.1, st.2))
    ([], [])
  if p.1.isEmpty then p.2 else p.1 :: p.2

/-- Join words with single spaces. -/
def joinSp : List (List Char) → List Char
  | [] => []
  | [w] => w
  | w :: rest => w ++ ' ' :: joinSp rest

/-- The source's `normalize`:
`s.toLowerCase().replace(/[^\w\s]/g, ' ').replace(/\s+/g, ' ').trim()`.
The collapse-and-trim composition is implemented as split-into-words
then rejoin with single spaces. -/
def normalizeChars (l : List Char) : List Char :=
  joinSp (wordsOf ((l.map Char.toLower).map replNonWord))

/-- Case folding `String(x).toLowerCase().trim()` — applied by the source to both
the caller's raw value and each option value before matching. -/
def foldKey (s : String) : List Char :=
  trimChars (toLowerChars s)

/-- Exact rule of the matcher cascade: raw case-folded equality or
normalized equality (`optValue === searchValue || normalizedOpt ===
normalizedSearch`). -/
def exactHit (rawValue optValue : String) : Bool :=
  let sv := foldKey rawValue
  let ov := foldKey optValue
  ov == sv || normalizeChars ov == normalizeChars sv

/-- Contains rule: either case-folded string contains the other
(`optValue.includes(searchValue) || searchValue.includes(optValue)`). -/
def containsHit (rawValue optValue : String) : Bool :=
  let sv := foldKey rawValue
  let ov := foldKey optValue
  occursIn sv ov || occursIn ov sv

/-- Normalized contains rule: same containment on the normalized forms. -/
def normContainsHit (rawValue optValue : String) : Bool :=
  let nsv := normalizeChars (foldKey rawValue)
  let nov := normalizeChars (foldKey optValue)
  occursIn nsv nov || occursIn nov nsv

/-- Word-subset rule: tokenize the normalized input on whitespace, keep
tokens of length `> 2`, and require every kept token to occur inside the
normalized option value; fires only when at least one token survives. -/
def wordsHit (rawValue optValue : String) : Bool :=
  let nsv := normalizeChars (foldKey rawValue)
  let nov := normalizeChars (foldKey optValue)
  let searchWords := (wordsOf nsv).filter (fun w => w.length > 2)
  !searchWords.isEmpty && searchWords.all (fun w => occursIn w nov)

/-- The per-option predicate the source passes to
`optionsResult.options.find(opt => ...)`: for ONE option, the four rules
are tried in order and the option matches as soon as any rule holds. -/
def optionPred (rawValue optValue : String) : Bool :=
  exactHit rawValue optValue || containsHit rawValue optValue ||
    normContainsHit rawValue optValue || wordsHit rawValue optValue

/-- One `{value, enum_id, sort}` entry of a `getSelectFieldOptions`
result (`color` is omitted: the update path never reads it). -/
structure OptEntry where
  value : String
  enum_id : Int
  sort : Option Int
deriving Repr, DecidableEq

/-- Model of `options.find(opt => ...)` of the source: the FIRST option, in list
order, satisfying `optionPred` — the scan is option-major, not
rule-major. -/
def findMatchedOption (rawValue : String) (opts : List OptEntry) : Option OptEntry :=
  opts.find? (fun o => optionPred rawValue o.value)

example : String.mk (normalizeChars "  Bogota--City  ".toList) = "bogota city" := by decide
example : occursIn "bogota".toList "bogota city".toList = true := by decide
example : exactHit "BOGOTA" "bogota" = true := by decide
example : exactHit "bogota" "bogota city" = false := by decide
example :
    findMatchedOption "bogota"
      [⟨"bogota city", 1, some 1⟩, ⟨"bogota", 2, some 2⟩] =
      some ⟨"bogota city", 1, some 1⟩ := by decide

/-- One enum entry of a catalog field definition, as delivered by
`GET /leads/custom_fields` (`color` omitted: never read here). -/
structure CatalogEnum where
  id : Int
  value : String
  sort : Option Int
deriving Repr, DecidableEq

/-- One field definition of the metadata catalog
(`_embedded.custom_fields[i]`); `enums` is `none` when the JSON field
is absent or `null`. -/
structure CatalogField where
  id : Int
  name : String
  code : Option String
  type : String
  enums : Option (List CatalogEnum)
deriving Repr, DecidableEq

/-- One currently-populated custom field of the lead, as returned by
`getLeadCustomFields` (the snapshot); the `values` array is omitted:
the update path only reads `field_id`, `field_name`, `field_code`. -/
structure SnapshotField where
  field_id : Int
  field_name : Option String
  field_code : Option String
deriving Repr, DecidableEq

/-- A caller-supplied field key: its raw string form (`Object.entries`
always yields strings) plus the oracle for `Number(raw)` — `some n`
when the parse is the integer `n`, `none` when it is `NaN`. -/
structure FieldKey where
  raw : String
  parsed : Option Int
deriving Repr, DecidableEq

/-- Outcome of every remote interaction one batch can perform.  The
transport is deterministic within a batch: repeated reads return the
same outcome (the code has no cache, so each is a separate fetch, which
the model counts).  `writeError = none` means the single `updateLead`
PATCH succeeds; `some msg` means it fails with that error message. -/
structure Env where
  snapshot : Option (List SnapshotField)
  metadata : Option (List CatalogField)
  writeError : Option String
deriving Repr, DecidableEq

/-- Model of `getLeadCustomFieldsMetadata`: on transport success, keep only the
fields whose `enums` is a non-empty array (the source's filter);
`none` models a failed fetch or a response without
`_embedded.custom_fields`. -/
def getLeadCustomFieldsMetadataM (env : Env) : Option (List CatalogField) :=
  env.metadata.map (List.filter (fun f =>
    match f.enums with
    | some l => !l.isEmpty
    | none => false))

/-- Comparator of the source's `options.sort`: by `sort` when both are
present (`a.sort - b.sort <= 0`), else by value (`localeCompare`,
modelled as code-point order on the ASCII fragment; no theorem below
exercises that fallback branch). -/
def optEntryLe (a b : OptEntry) : Bool :=
  match a.sort, b.sort with
  | some x, some y => x ≤ y
  | _, _ => a.value ≤ b.value

/-- Stable insertion of `x` after every element `y` with `le y x`. -/
def insertAfterLe (le : OptEntry → OptEntry → Bool) (x : OptEntry) :
    List OptEntry → List OptEntry
  | [] => [x]
  | y :: ys => if le y x then y :: insertAfterLe le x ys else x :: y :: ys

/-- Stable sort (JS `Array.prototype.sort` is stable; for the
consistent comparators arising here the stable sorted permutation is
unique, so stable insertion sort models it exactly). -/
def stableSortLe (le : OptEntry → OptEntry → Bool) (l : List OptEntry) : List OptEntry :=
  l.foldl (fun acc x => insertAfterLe le x acc) []

/-- Result shape of `getSelectFieldOptions` (the components the update
path reads: `success`, `fieldName`, `options`; per the source,
`options` is present only when non-empty). -/
structure SelectOptionsResult where
  success : Bool
  fieldName : Option String
  options : Option (List OptEntry)
deriving Repr, DecidableEq

/-- Model of `getSelectFieldOptions fieldId`: one fresh catalog fetch, find the
field by id, require `select`/`multiselect`, then emit its enums sorted
by the comparator above.  Every call performs its own metadata fetch
(counted by the callers below). -/
def getSelectFieldOptionsM (env : Env) (fieldId : Int) : SelectOptionsResult :=
  match getLeadCustomFieldsMetadataM env with
  | none => ⟨false, none, none⟩
  | some fields =>
    match fields.find? (fun f => f.id == fieldId) with
    | none => ⟨false, none, none⟩
    | some field =>
      if field.type != "select" && field.type != "multiselect" then
        ⟨false, some field.name, none⟩
      else
        let options := (field.enums.getD []).map (fun e => OptEntry.mk e.value e.id e.sort)
        let sorted := stableSortLe optEntryLe options
        ⟨true, some field.name, if sorted.isEmpty then none else some sorted⟩

/-- Membership test for one snapshot field in the `nameToIdMap` build:
the map receives an entry under the lowercased name (resp. code) only
when that name (resp. code) is truthy, i.e. a non-empty string. -/
def mapEntryHits (k : List Char) (f : SnapshotField) : Bool :=
  (match f.field_name with
   | some s => s != "" && toLowerChars s == k
   | none => false) ||
  (match f.field_code with
   | some s => s != "" && toLowerChars s == k
   | none => false)

/-- Lookup `nameToIdMap.get(lowerKey)`: the map is built by iterating the
snapshot in order and `set`ting name then code entries, so the lookup
returns the `field_id` of the LAST snapshot field whose (non-empty)
name or code lowercases to the key; empty when the snapshot fetch
failed (the map is only populated on success). -/
def nameToIdGet (env : Env) (keyRaw : String) : Option Int :=
  match env.snapshot with
  | none => none
  | some snap =>
    ((snap.filter (mapEntryHits (toLowerChars keyRaw))).getLast?).map (·.field_id)

/-- The name-search predicate of `searchLeadCustomField`: the field's
lowercased name or code CONTAINS the lowercased search term
(`includes`; an absent name or code is treated as `''`). -/
def snapNameHit (searchName : List Char) (f : SnapshotField) : Bool :=
  occursIn searchName (toLowerChars (f.field_name.getD "")) ||
    occursIn searchName (toLowerChars (f.field_code.getD ""))

/-- Model of `searchLeadCustomField leadId key`: refetches the snapshot (counted
by the caller), then — for a numeric key — finds the field with that
exact id, then falls back to the first field whose name or code
contains the key (`snapNameHit`).  Returns the found field's id. -/
def searchLeadCustomFieldM (env : Env) (key : FieldKey) : Option Int :=
  match env.snapshot with
  | none => none
  | some snap =>
    let byId : Option SnapshotField :=
      match key.parsed with
      | some n => snap.find? (fun f => f.field_id == n)
      | none => none
    match byId with
    | some f => some f.field_id
    | none => (snap.find? (snapNameHit (toLowerChars key.raw))).map (·.field_id)

/-- The `fieldId` the loop body computes for one entry: numeric keys
short-circuit to their parse; otherwise `searchLeadCustomField`, then
the `nameToIdMap` lookup. -/
def resolveFieldId (env : Env) (key : FieldKey) : Option Int :=
  match key.parsed with
  | some n => some n
  | none =>
    match searchLeadCustomFieldM env key with
    | some fid => some fid
    | none => nameToIdGet env key.raw

/-- One entry of the assembled `custom_fields_values` payload.  The
source always pushes a one-element `values` array; the model keeps that
single `{value, enum_id?}` object inline. -/
structure PayloadEntry where
  field_id : Int
  value : String
  enum_id : Option Int
deriving Repr, DecidableEq

/-- One per-field diagnostic of the `errors` array. -/
structure FieldError where
  field : String
  error : String
deriving Repr, DecidableEq

/-- The `Field not found: ...` diagnostic text. -/
def notFoundMsg (keyRaw : String) : String :=
  "Field not found: " ++ keyRaw ++
    ". Field may not exist or may not have a value yet (Kommo API limitation). Try using the field ID directly."

/-- The `Value "..." is not valid for select field ...` diagnostic text
(`fieldName || fieldId`: the id is printed when the name is absent or
empty, JS truthiness). -/
def noMatchMsg (value : String) (fieldName : Option String) (fid : Int)
    (opts : List OptEntry) : String :=
  let nameOrId : String :=
    match fieldName with
    | some s => if s == "" then toString fid else s
    | none => toString fid
  let suggestions := ", ".intercalate ((opts.take 5).map (·.value))
  "Value \"" ++ value ++ "\" is not valid for select field \"" ++ nameOrId ++
    "\". Valid options include: " ++ suggestions ++
    (if opts.length > 5 then "..." else "")

/-- The body shared by both branches of the loop once a concrete field
id is in hand (the source duplicates this block verbatim for the
resolved-id and numeric-fallback paths): consult `getSelectFieldOptions`
and either emit a matched `{value, enum_id}` payload entry, record a
no-match diagnostic, or fall through to the raw value with no
`enum_id`. -/
def handleWithId (env : Env) (fid : Int) (keyRaw value : String) :
    PayloadEntry ⊕ FieldError :=
  let r := getSelectFieldOptionsM env fid
  match r.options with
  | some opts =>
    if r.success && !opts.isEmpty then
      match findMatchedOption value opts with
      | some m => Sum.inl ⟨fid, m.value, some m.enum_id⟩
      | none => Sum.inr ⟨keyRaw, noMatchMsg value r.fieldName fid opts⟩
    else Sum.inl ⟨fid, value, none⟩
  | none => Sum.inl ⟨fid, value, none⟩

/-- What one loop iteration contributes: exactly one payload entry or
one error, plus the number of snapshot fetches and catalog fetches the
iteration performed. -/
structure EntryTrace where
  contrib : PayloadEntry ⊕ FieldError
  snapCost : Nat
  catCost : Nat
deriving Repr, DecidableEq

/-- One iteration of the entry loop.  `if (fieldId)` is JS truthiness:
a resolved id of `0` falls through to the numeric-fallback branch; a
non-numeric unresolved key yields the `Field not found` diagnostic.
Non-numeric keys cost one snapshot fetch (inside
`searchLeadCustomField`); every branch that reaches
`getSelectFieldOptions` costs one catalog fetch. -/
def processOne (env : Env) (key : FieldKey) (value : String) : EntryTrace :=
  let snapCost : Nat := match key.parsed with | some _ => 0 | none => 1
  let fallback : EntryTrace :=
    match key.parsed with
    | some n => ⟨handleWithId env n key.raw value, snapCost, 1⟩
    | none => ⟨Sum.inr ⟨key.raw, notFoundMsg key.raw⟩, snapCost, 0⟩
  match resolveFieldId env key with
  | some fid =>
    if fid == 0 then fallback
    else ⟨handleWithId env fid key.raw value, snapCost, 1⟩
  | none => fallback

/-- Accumulated loop state: the `customFieldsValues` payload, the
`errors` array, and the fetch counters. -/
structure LoopState where
  payload : List PayloadEntry
  errors : List FieldError
  snapFetches : Nat
  catFetches : Nat
deriving Repr, DecidableEq

/-- Fold one entry into the loop state. -/
def stepEntry (env : Env) (st : LoopState) (e : FieldKey × String) : LoopState :=
  let t := processOne env e.1 e.2
  match t.contrib with
  | Sum.inl p =>
    ⟨st.payload ++ [p], st.errors, st.snapFetches + t.snapCost, st.catFetches + t.catCost⟩
  | Sum.inr err =>
    ⟨st.payload, st.errors ++ [err], st.snapFetches + t.snapCost, st.catFetches + t.catCost⟩

/-- The whole entry loop, starting after the one initial
`getLeadCustomFields` snapshot fetch (counted as 1). -/
def runEntries (env : Env) (fields : List (FieldKey × String)) : LoopState :=
  fields.foldl (stepEntry env) ⟨[], [], 1, 0⟩

/-- Result of `updateLeadCustomFields`, enriched with the model's
observables: the assembled payload and the interaction counters. -/
structure BatchOutcome where
  success : Bool
  updatedFields : Option Nat
  errors : Option (List FieldError)
  error : Option String
  payload : List PayloadEntry
  writeCalls : Nat
  snapFetches : Nat
  catFetches : Nat
deriving Repr, DecidableEq

/-- Model of `updateLeadCustomFields leadId fields config`: run the loop over
the entries in iteration order, then — with a non-empty payload — issue
the single `updateLead` PATCH (success: `updatedFields` = payload
length; failure: `success: false`, `updatedFields: 0`); with an empty
payload, fail with `No fields could be mapped to field IDs` and no
write call.  On the two write paths `errors` is present only when
non-empty; on the empty-payload path it is always present. -/
def updateLeadCustomFieldsM (env : Env) (fields : List (FieldKey × String)) :
    BatchOutcome :=
  let st := runEntries env fields
  if st.payload.isEmpty then
    ⟨false, some 0, some st.errors, some "No fields could be mapped to field IDs",
      st.payload, 0, st.snapFetches, st.catFetches⟩
  else
    match env.writeError with
    | none =>
      ⟨true, some st.payload.length,
        if st.errors.isEmpty then none else some st.errors, none,
        st.payload, 1, st.snapFetches, st.catFetches⟩
    | some msg =>
      ⟨false, some 0,
        if st.errors.isEmpty then none else some st.errors, some msg,
        st.payload, 1, st.snapFetches, st.catFetches⟩

/-- A small concrete catalog: field 501 "City", type select, options
"bogota city" (enum 1, sort 1) and "bogota" (enum 2, sort 2). -/
def cityField : CatalogField :=
  ⟨501, "City", none, "select",
    some [⟨1, "bogota city", some 1⟩, ⟨2, "bogota", some 2⟩]⟩

/-- Environment with the `cityField` catalog, an empty snapshot and a
succeeding write. -/
def envCity : Env :=
  ⟨some [⟨501, some "City", none⟩], some [cityField], none⟩

example :
    getSelectFieldOptionsM envCity 501 =
      ⟨true, some "City", some [⟨"bogota city", 1, some 1⟩, ⟨"bogota", 2, some 2⟩]⟩ := by
  decide

example :
    (processOne envCity ⟨"City", none⟩ "bogota").contrib =
      Sum.inl ⟨501, "bogota city", some 1⟩ := by decide

example :
    updateLeadCustomFieldsM envCity [(⟨"City", none⟩, "BOGOTA!!")] =
      ⟨true, some 1, none, none, [⟨501, "bogota city", some 1⟩], 1, 2, 1⟩ := by decide

/-- Characterization of `List.find?`: a hit is the first element
satisfying the predicate — everything before it fails. -/
theorem find?_first_spec {α : Type} (p : α → Bool) :
    ∀ (l : List α) (a : α), l.find? p = some a →
      p a = true ∧ ∃ pre suf, l = pre ++ a :: suf ∧ ∀ b ∈ pre, p b = false := by
  intro l
  induction l with
  | nil => intro a h; simp [List.find?] at h
  | cons x t ih =>
    intro a h
    rw [List.find?_cons] at h
    cases hpx : p x with
    | true =>
      rw [hpx] at h
      simp only [Option.some.injEq] at h
      subst h
      exact ⟨hpx, [], t, rfl, by simp⟩
    | false =>
      rw [hpx] at h
      simp only at h
      obtain ⟨hpa, pre, suf, hteq, hpre⟩ := ih a h
      subst hteq
      refine ⟨hpa, x :: pre, suf, rfl, ?_⟩
      intro b hb
      rcases List.mem_cons.mp hb with rfl | hb
      · exact hpx
      · exact hpre b hb

/-- C1 (amended): the Option Matcher is option-major, not rule-major:
`matchedOption` is the FIRST option in catalog order satisfying ANY of
the four comparison rules (each option is tested against the whole
cascade before the next option is looked at).  Every option preceding
the returned one satisfies no rule at all; an earlier option that
satisfies only a looser rule therefore beats a later exact match. -/
theorem matcher_option_major (rawValue : String) (opts : List OptEntry) (o : OptEntry)
    (h : findMatchedOption rawValue opts = some o) :
    optionPred rawValue o.value = true ∧
      ∃ pre suf, opts = pre ++ o :: suf ∧
        ∀ o' ∈ pre, optionPred rawValue o'.value = false := by
  unfold findMatchedOption at h
  exact find?_first_spec _ opts o h

/-- Witness for `matcher_option_major` at a concrete catalog. -/
theorem matcher_option_major_witness :
    optionPred "bogota" "bogota city" = true ∧
      ∃ pre suf,
        ([⟨"bogota city", 1, some 1⟩, ⟨"bogota", 2, some 2⟩] : List OptEntry) =
          pre ++ (⟨"bogota city", 1, some 1⟩ : OptEntry) :: suf ∧
        ∀ o' ∈ pre, optionPred "bogota" o'.value = false :=
  matcher_option_major "bogota"
    [⟨"bogota city", 1, some 1⟩, ⟨"bogota", 2, some 2⟩]
    ⟨"bogota city", 1, some 1⟩ (by decide)

/-- C1 counterexample: for the select field 501 with options
`["bogota city" (enum 1), "bogota" (enum 2)]` and raw input `"bogota"`,
option 2 is an exact (case-insensitive) match, option 1 is not exact
(it only contains the input as a substring) — yet the matcher returns
option 1, because it scans option-by-option, so the rule-major cascade
the claim describes does not hold. -/
theorem matcher_rule_major_counterexample :
    exactHit "bogota" "bogota" = true ∧
      exactHit "bogota" "bogota city" = false ∧
      containsHit "bogota" "bogota city" = true ∧
      findMatchedOption "bogota"
          [⟨"bogota city", 1, some 1⟩, ⟨"bogota", 2, some 2⟩] =
        some ⟨"bogota city", 1, some 1⟩ ∧
      handleWithId envCity 501 "501" "bogota" =
        Sum.inl ⟨501, "bogota city", some 1⟩ := by
  decide

/-- One loop iteration contributes exactly one payload entry or one
error to the accumulated state. -/
theorem stepEntry_len (env : Env) (st : LoopState) (e : FieldKey × String) :
    (stepEntry env st e).payload.length + (stepEntry env st e).errors.length
      = st.payload.length + st.errors.length + 1 := by
  simp only [stepEntry]
  rcases h : (processOne env e.1 e.2).contrib with p | err <;>
    simp [h] <;> omega

/-- After the loop, payload entries and errors together account for
every input entry exactly once. -/
theorem runEntries_len (env : Env) (fields : List (FieldKey × String)) :
    (runEntries env fields).payload.length + (runEntries env fields).errors.length
      = fields.length := by
  suffices h : ∀ st : LoopState,
      (fields.foldl (stepEntry env) st).payload.length +
        (fields.foldl (stepEntry env) st).errors.length
        = st.payload.length + st.errors.length + fields.length by
    simpa [runEntries] using h ⟨[], [], 1, 0⟩
  induction fields with
  | nil => intro st; simp
  | cons e t ih =>
    intro st
    rw [List.foldl_cons, ih]
    have h2 := stepEntry_len env st e
    simp only [List.length_cons]
    omega

/-- The final outcome copies the loop state's payload and fetch
counters unchanged, whichever return branch is taken. -/
theorem outcome_state_proj (env : Env) (fields : List (FieldKey × String)) :
    (updateLeadCustomFieldsM env fields).payload = (runEntries env fields).payload ∧
      (updateLeadCustomFieldsM env fields).snapFetches = (runEntries env fields).snapFetches ∧
      (updateLeadCustomFieldsM env fields).catFetches = (runEntries env fields).catFetches := by
  simp only [updateLeadCustomFieldsM]
  split
  · exact ⟨rfl, rfl, rfl⟩
  · split <;> exact ⟨rfl, rfl, rfl⟩

/-- C2 (amended): whenever the single batched write succeeds — or is
never issued because the payload is empty — the returned
`updatedFields` count plus the number of per-field errors equals the
number of input entries: every key is accounted for exactly once.
(The unamended claim fails when the write call fails: that branch
reports `updatedFields: 0` while the payload entries are not re-added
to the error list, see the counterexample.) -/
theorem totality_when_write_succeeds (env : Env) (fields : List (FieldKey × String))
    (h : env.writeError = none) :
    (updateLeadCustomFieldsM env fields).updatedFields.getD 0 +
      ((updateLeadCustomFieldsM env fields).errors.getD []).length = fields.length := by
  have hlen := runEntries_len env fields
  simp only [updateLeadCustomFieldsM, h]
  split
  · rename_i hemp
    rw [List.isEmpty_iff] at hemp
    simp only [Option.getD_some]
    rw [hemp] at hlen
    simpa using hlen
  · split
    · rename_i herr
      rw [List.isEmpty_iff] at herr
      simp only [Option.getD_some, Option.getD_none]
      rw [herr] at hlen
      simpa using hlen
    · simp only [Option.getD_some]
      omega

/-- Witness for `totality_when_write_succeeds`: a batch with one
resolvable numeric key and one unresolvable name; 1 payload entry + 1
error = 2 input keys. -/
theorem totality_when_write_succeeds_witness :
    (updateLeadCustomFieldsM ⟨some [], some [], none⟩
        [(⟨"7", some 7⟩, "x"), (⟨"Foo", none⟩, "y")]).updatedFields.getD 0 +
      ((updateLeadCustomFieldsM ⟨some [], some [], none⟩
        [(⟨"7", some 7⟩, "x"), (⟨"Foo", none⟩, "y")]).errors.getD []).length = 2 :=
  totality_when_write_succeeds ⟨some [], some [], none⟩
    [(⟨"7", some 7⟩, "x"), (⟨"Foo", none⟩, "y")] rfl

/-- C2 counterexample: when the batched write call itself fails, the
outcome reports `updatedFields: 0` and no per-field errors, so for a
one-entry batch whose single key resolved into the payload the claimed
equation `resolvedCount + len(perFieldErrors) = len(inputFields)` reads
`0 + 0 = 1` and is false. -/
theorem totality_counterexample :
    (updateLeadCustomFieldsM ⟨some [], none, some "transport error"⟩
        [(⟨"7", some 7⟩, "x")]).updatedFields = some 0 ∧
      (updateLeadCustomFieldsM ⟨some [], none, some "transport error"⟩
        [(⟨"7", some 7⟩, "x")]).errors = none ∧
      (updateLeadCustomFieldsM ⟨some [], none, some "transport error"⟩
        [(⟨"7", some 7⟩, "x")]).success = false ∧
      ¬((updateLeadCustomFieldsM ⟨some [], none, some "transport error"⟩
          [(⟨"7", some 7⟩, "x")]).updatedFields.getD 0 +
        ((updateLeadCustomFieldsM ⟨some [], none, some "transport error"⟩
          [(⟨"7", some 7⟩, "x")]).errors.getD []).length = 1) := by
  decide

/-- C7 (confirmed): after all entries are processed, a non-empty
payload triggers exactly one batched `updateLead` write carrying it,
and an empty payload yields a failure outcome
(`No fields could be mapped to field IDs`) with no write call at all;
the write is never issued more than once per batch. -/
theorem single_write_per_batch (env : Env) (fields : List (FieldKey × String)) :
    ((updateLeadCustomFieldsM env fields).payload = [] →
        (updateLeadCustomFieldsM env fields).writeCalls = 0 ∧
        (updateLeadCustomFieldsM env fields).success = false ∧
        (updateLeadCustomFieldsM env fields).error =
          some "No fields could be mapped to field IDs") ∧
      ((updateLeadCustomFieldsM env fields).payload ≠ [] →
        (updateLeadCustomFieldsM env fields).writeCalls = 1) ∧
      (updateLeadCustomFieldsM env fields).writeCalls ≤ 1 := by
  simp only [updateLeadCustomFieldsM]
  split
  · rename_i hemp
    rw [List.isEmpty_iff] at hemp
    exact ⟨fun _ => ⟨rfl, rfl, rfl⟩, fun hne => absurd hemp hne, by simp⟩
  · rename_i hne
    rw [List.isEmpty_iff] at hne
    split <;>
      exact ⟨fun habs => absurd habs (by simpa using hne), fun _ => rfl, by simp⟩

/-- Witness for `single_write_per_batch`: an empty batch has an empty
payload, fails, and issues no write; a batch with one numeric key has a
non-empty payload and issues exactly one write. -/
theorem single_write_per_batch_witness :
    ((updateLeadCustomFieldsM ⟨some [], some [], none⟩ []).writeCalls = 0 ∧
        (updateLeadCustomFieldsM ⟨some [], some [], none⟩ []).success = false ∧
        (updateLeadCustomFieldsM ⟨some [], some [], none⟩ []).error =
          some "No fields could be mapped to field IDs") ∧
      (updateLeadCustomFieldsM ⟨some [], some [], none⟩
        [(⟨"7", some 7⟩, "x")]).writeCalls = 1 :=
  ⟨(single_write_per_batch ⟨some [], some [], none⟩ []).1 rfl,
    (single_write_per_batch ⟨some [], some [], none⟩
      [(⟨"7", some 7⟩, "x")]).2.1 (by decide)⟩

/-- C4 (amended): an empty field map is not rejected up front: the
batch still performs the one initial snapshot fetch, then — with
nothing to iterate — returns the failure outcome
`No fields could be mapped to field IDs` with an empty error list,
no catalog fetch and no write call; no key ever reaches the resolution
logic.  (The unamended claim says no snapshot fetch happens; the
counterexample shows one does.) -/
theorem empty_batch_behaviour (env : Env) :
    updateLeadCustomFieldsM env [] =
      ⟨false, some 0, some [], some "No fields could be mapped to field IDs",
        [], 0, 1, 0⟩ := rfl

/-- C4 counterexample: on an empty field map the operation still
performs the initial snapshot fetch (`getLeadCustomFields`), i.e. the
fetch count is 1, not 0 as the claim's "performs no snapshot or catalog
fetch" requires. -/
theorem empty_batch_counterexample :
    (updateLeadCustomFieldsM ⟨some [], some [], none⟩ []).snapFetches = 1 ∧
      ¬((updateLeadCustomFieldsM ⟨some [], some [], none⟩ []).snapFetches = 0) := by
  decide

/-- Whether one entry's processing reaches `getSelectFieldOptions`
(and therefore performs its own catalog fetch): every numeric key does;
a non-numeric key does exactly when it resolved to a truthy (non-zero)
field id. -/
def consultsCatalogB (env : Env) (key : FieldKey) : Bool :=
  match resolveFieldId env key with
  | some fid => if fid == 0 then key.parsed.isSome else true
  | none => key.parsed.isSome

/-- Catalog-fetch cost of one entry: 1 when the entry consults the
catalog, 0 otherwise. -/
theorem processOne_catCost (env : Env) (key : FieldKey) (value : String) :
    (processOne env key value).catCost = if consultsCatalogB env key then 1 else 0 := by
  cases hp : key.parsed with
  | some n =>
    have hr : resolveFieldId env key = some n := by simp [resolveFieldId, hp]
    by_cases hz : (n == 0) = true <;>
      simp [processOne, consultsCatalogB, hp, hr, hz]
  | none =>
    cases hr : resolveFieldId env key with
    | none => simp [processOne, consultsCatalogB, hp, hr]
    | some fid =>
      by_cases hz : (fid == 0) = true <;>
        simp [processOne, consultsCatalogB, hp, hr, hz]

/-- The catalog-fetch counter after the loop equals the number of
entries that consulted the catalog. -/
theorem runEntries_cat (env : Env) (fields : List (FieldKey × String)) :
    (runEntries env fields).catFetches =
      (fields.filter (fun e => consultsCatalogB env e.1)).length := by
  suffices h : ∀ st : LoopState,
      (fields.foldl (stepEntry env) st).catFetches =
        st.catFetches + (fields.filter (fun e => consultsCatalogB env e.1)).length by
    simpa [runEntries] using h ⟨[], [], 1, 0⟩
  induction fields with
  | nil => intro st; simp
  | cons e t ih =>
    intro st
    rw [List.foldl_cons, ih]
    have hc : (stepEntry env st e).catFetches =
        st.catFetches + (processOne env e.1 e.2).catCost := by
      simp only [stepEntry]
      rcases h2 : (processOne env e.1 e.2).contrib with p | err <;> simp [h2]
    rw [hc, processOne_catCost]
    by_cases h3 : consultsCatalogB env e.1 = true
    · simp [List.filter_cons, h3]
      omega
    · simp [List.filter_cons, h3]

/-- C3 (amended): the field-metadata catalog fetch is issued once per
entry that consults the catalog — each `getSelectFieldOptions` call
performs its own `getLeadCustomFieldsMetadata` fetch — not once per
batch; entries never share one fetch result. -/
theorem catalog_fetch_per_entry (env : Env) (fields : List (FieldKey × String)) :
    (updateLeadCustomFieldsM env fields).catFetches =
      (fields.filter (fun e => consultsCatalogB env e.1)).length := by
  rw [(outcome_state_proj env fields).2.2]
  exact runEntries_cat env fields

/-- C3 counterexample: a batch of two numeric-key entries issues the
catalog fetch twice — not "exactly once per batch" as the claim
states. -/
theorem catalog_fetch_counterexample :
    (updateLeadCustomFieldsM ⟨some [], some [], none⟩
        [(⟨"7", some 7⟩, "a"), (⟨"8", some 8⟩, "b")]).catFetches = 2 ∧
      ¬((updateLeadCustomFieldsM ⟨some [], some [], none⟩
          [(⟨"7", some 7⟩, "a"), (⟨"8", some 8⟩, "b")]).catFetches = 1) := by
  decide

/-- Every payload entry `handleWithId` emits carries exactly the field
id it was given. -/
theorem handleWithId_field_id (env : Env) (fid : Int) (keyRaw value : String)
    (e : PayloadEntry) (h : handleWithId env fid keyRaw value = Sum.inl e) :
    e.field_id = fid := by
  simp only [handleWithId] at h
  rcases ho : (getSelectFieldOptionsM env fid).options with _ | opts <;>
    simp only [ho] at h
  · injection h with h2
    subst h2
    rfl
  · by_cases hc : ((getSelectFieldOptionsM env fid).success && !opts.isEmpty) = true
    · rw [if_pos hc] at h
      rcases hm : findMatchedOption value opts with _ | m <;> simp only [hm] at h
      · injection h
      · injection h with h2
        subst h2
        rfl
    · rw [if_neg hc] at h
      injection h with h2
      subst h2
      rfl

/-- Any payload entry produced for a numeric key carries the parsed
number as its field id. -/
theorem processOne_numeric_fid (env : Env) (key : FieldKey) (value : String)
    (n : Int) (h : key.parsed = some n) (e : PayloadEntry)
    (he : (processOne env key value).contrib = Sum.inl e) : e.field_id = n := by
  have hr : resolveFieldId env key = some n := by simp [resolveFieldId, h]
  simp only [processOne, hr, h] at he
  by_cases hz : (n == 0) = true
  · rw [if_pos hz] at he
    exact handleWithId_field_id env n key.raw value e he
  · rw [if_neg hz] at he
    exact handleWithId_field_id env n key.raw value e he

/-- C5 (confirmed): a key whose `Number(...)` parse succeeds is
resolved immediately to that literal number — never by a name or code
match against the snapshot — and any payload entry the entry produces
carries exactly that number as its field id, for EVERY environment
(in particular regardless of any snapshot field whose name contains the
numeral string). -/
theorem numeric_priority (env : Env) (key : FieldKey) (value : String) (n : Int)
    (h : key.parsed = some n) :
    resolveFieldId env key = some n ∧
      ∀ e : PayloadEntry,
        (processOne env key value).contrib = Sum.inl e → e.field_id = n := by
  refine ⟨by simp [resolveFieldId, h], ?_⟩
  intro e he
  exact processOne_numeric_fid env key value n h e he

/-- Witness for `numeric_priority`: the key `"501"` is taken as the
literal id 501 even though the snapshot holds a field named `"501"`
with a different id (777), and the payload entry produced in an
environment with an empty catalog carries 501. -/
theorem numeric_priority_witness :
    (⟨"501", some 501⟩ : FieldKey).parsed = some 501 ∧
      resolveFieldId ⟨some [⟨777, some "501", none⟩], some [], none⟩
          ⟨"501", some 501⟩ = some 501 ∧
      (processOne ⟨some [⟨777, some "501", none⟩], some [], none⟩
          ⟨"501", some 501⟩ "x").contrib = Sum.inl ⟨501, "x", none⟩ ∧
      (501 : Int) = 501 :=
  ⟨rfl,
    (numeric_priority ⟨some [⟨777, some "501", none⟩], some [], none⟩
      ⟨"501", some 501⟩ "x" 501 rfl).1,
    by decide,
    (numeric_priority ⟨some [⟨777, some "501", none⟩], some [], none⟩
      ⟨"501", some 501⟩ "x" 501 rfl).2 ⟨501, "x", none⟩ (by decide)⟩

/-- If `handleWithId` emits a payload entry that carries an `enum_id`,
then that entry was produced by a successful option match: its value is
the catalog's stored option string and its enum id is that option's,
never the caller's raw text. -/
theorem handleWithId_enum (env : Env) (fid : Int) (keyRaw value : String)
    (e : PayloadEntry) (eid : Int)
    (h : handleWithId env fid keyRaw value = Sum.inl e)
    (h2 : e.enum_id = some eid) :
    ∃ opts m, (getSelectFieldOptionsM env fid).options = some opts ∧
      findMatchedOption value opts = some m ∧ m ∈ opts ∧
      e.value = m.value ∧ eid = m.enum_id := by
  simp only [handleWithId] at h
  rcases ho : (getSelectFieldOptionsM env fid).options with _ | opts <;>
    simp only [ho] at h
  · injection h with h3
    subst h3
    simp at h2
  · by_cases hc : ((getSelectFieldOptionsM env fid).success && !opts.isEmpty) = true
    · rw [if_pos hc] at h
      rcases hm : findMatchedOption value opts with _ | m <;> simp only [hm] at h
      · injection h
      · injection h with h3
        subst h3
        have hmem : m ∈ opts := List.mem_of_find?_eq_some hm
        refine ⟨opts, m, rfl, hm, hmem, rfl, ?_⟩
        simp only [Option.some.injEq] at h2
        exact h2.symm
    · rw [if_neg hc] at h
      injection h with h3
      subst h3
      simp at h2

/-- C6 (confirmed): whenever a batch entry's option match succeeds —
i.e. the payload entry it produces carries an `enum_id` — the entry's
`value` is the canonical option string stored in the catalog for that
field, paired with that option's enum id; the caller's raw text is
never emitted on the match path. -/
theorem canonical_reemission (env : Env) (key : FieldKey) (value : String)
    (e : PayloadEntry) (eid : Int)
    (h : (processOne env key value).contrib = Sum.inl e)
    (h2 : e.enum_id = some eid) :
    ∃ opts m, (getSelectFieldOptionsM env e.field_id).options = some opts ∧
      findMatchedOption value opts = some m ∧ m ∈ opts ∧
      e.value = m.value ∧ eid = m.enum_id := by
  cases hp : key.parsed with
  | some n =>
    have hr : resolveFieldId env key = some n := by simp [resolveFieldId, hp]
    simp only [processOne, hr, hp] at h
    by_cases hz : (n == 0) = true
    · rw [if_pos hz] at h
      have hfid := handleWithId_field_id env n key.raw value e h
      rw [hfid]
      exact handleWithId_enum env n key.raw value e eid h h2
    · rw [if_neg hz] at h
      have hfid := handleWithId_field_id env n key.raw value e h
      rw [hfid]
      exact handleWithId_enum env n key.raw value e eid h h2
  | none =>
    cases hr : resolveFieldId env key with
    | none =>
      simp only [processOne, hr, hp] at h
      injection h
    | some fid =>
      simp only [processOne, hr, hp] at h
      by_cases hz : (fid == 0) = true
      · rw [if_pos hz] at h
        injection h
      · rw [if_neg hz] at h
        have hfid := handleWithId_field_id env fid key.raw value e h
        rw [hfid]
        exact handleWithId_enum env fid key.raw value e eid h h2

/-- Witness for `canonical_reemission`: the raw input `"BOGOTA!!"`
(differing from the stored option in case and punctuation) matches the
catalog option `"bogota city"` of field 501, and the payload entry
carries the canonical stored string with enum id 1. -/
theorem canonical_reemission_witness :
    ∃ opts m,
      (getSelectFieldOptionsM envCity
        (⟨501, "bogota city", some 1⟩ : PayloadEntry).field_id).options = some opts ∧
      findMatchedOption "BOGOTA!!" opts = some m ∧ m ∈ opts ∧
      (⟨501, "bogota city", some 1⟩ : PayloadEntry).value = m.value ∧
      (1 : Int) = m.enum_id :=
  canonical_reemission envCity ⟨"City", none⟩ "BOGOTA!!"
    ⟨501, "bogota city", some 1⟩ 1 (by decide) rfl

/-- The last element of a list is a member. -/
theorem mem_of_getLast?_eq_some {α : Type} {l : List α} {a : α}
    (h : l.getLast? = some a) : a ∈ l := by
  obtain ⟨hne, heq⟩ := List.mem_getLast?_eq_getLast (Option.mem_def.mpr h)
  rw [heq]
  exact List.getLast_mem hne

/-- A field id found by `searchLeadCustomField` belongs to a snapshot
field. -/
theorem searchLeadCustomFieldM_mem (env : Env) (key : FieldKey) (fid : Int)
    (h : searchLeadCustomFieldM env key = some fid) :
    ∃ f ∈ env.snapshot.getD [], f.field_id = fid := by
  rcases hs : env.snapshot with _ | snap
  · rw [searchLeadCustomFieldM, hs] at h
    simp at h
  · simp only [searchLeadCustomFieldM, hs] at h
    rcases hp : key.parsed with _ | n
    · simp only [hp] at h
      rcases hf : List.find? (snapNameHit (toLowerChars key.raw)) snap with _ | f
      · rw [hf] at h
        simp at h
      · rw [hf] at h
        have hv : f.field_id = fid := by simpa using h
        exact ⟨f, by simpa using List.mem_of_find?_eq_some hf, hv⟩
    · simp only [hp] at h
      rcases hf : List.find? (fun f => f.field_id == n) snap with _ | f
      · rw [hf] at h
        simp only [] at h
        rcases hg : List.find? (snapNameHit (toLowerChars key.raw)) snap with _ | g
        · rw [hg] at h
          simp at h
        · rw [hg] at h
          have hv : g.field_id = fid := by simpa using h
          exact ⟨g, by simpa using List.mem_of_find?_eq_some hg, hv⟩
      · rw [hf] at h
        simp only [] at h
        have hv : f.field_id = fid := by simpa using h
        exact ⟨f, by simpa using List.mem_of_find?_eq_some hf, hv⟩

/-- A field id found in the `nameToIdMap` belongs to a snapshot
field. -/
theorem nameToIdGet_mem (env : Env) (keyRaw : String) (fid : Int)
    (h : nameToIdGet env keyRaw = some fid) :
    ∃ f ∈ env.snapshot.getD [], f.field_id = fid := by
  rcases hs : env.snapshot with _ | snap
  · rw [nameToIdGet, hs] at h
    simp at h
  · simp only [nameToIdGet, hs] at h
    rcases hg : (List.filter (mapEntryHits (toLowerChars keyRaw)) snap).getLast? with _ | f
    · rw [hg] at h
      simp at h
    · rw [hg] at h
      have hv : f.field_id = fid := by simpa using h
      have hmem : f ∈ snap := List.mem_of_mem_filter (mem_of_getLast?_eq_some hg)
      exact ⟨f, by simpa using hmem, hv⟩

/-- C8 (amended): a payload entry's field id is either the literal
number the caller's key parses to — whatever it is, with no positivity
check — or a `field_id` of some snapshot field; the operation itself
never validates that the id is a positive integer. -/
theorem payload_field_id_origin (env : Env) (key : FieldKey) (value : String)
    (e : PayloadEntry) (h : (processOne env key value).contrib = Sum.inl e) :
    key.parsed = some e.field_id ∨
      ∃ f ∈ env.snapshot.getD [], f.field_id = e.field_id := by
  cases hp : key.parsed with
  | some n =>
    have hn := processOne_numeric_fid env key value n hp e h
    left
    rw [hn]
  | none =>
    cases hr : resolveFieldId env key with
    | none =>
      simp only [processOne, hr, hp] at h
      injection h
    | some fid =>
      by_cases hz : (fid == 0) = true
      · simp only [processOne, hr, hp] at h
        rw [if_pos hz] at h
        injection h
      · simp only [processOne, hr, hp] at h
        rw [if_neg hz] at h
        have hfid := handleWithId_field_id env fid key.raw value e h
        right
        have hsrc : searchLeadCustomFieldM env key = some fid ∨
            nameToIdGet env key.raw = some fid := by
          simp only [resolveFieldId, hp] at hr
          rcases hsr : searchLeadCustomFieldM env key with _ | g
          · rw [hsr] at hr
            right
            exact hr
          · rw [hsr] at hr
            left
            have hg : g = fid := by simpa using hr
            rw [← hg]
        rcases hsrc with hc | hc
        · obtain ⟨f, hf1, hf2⟩ := searchLeadCustomFieldM_mem env key fid hc
          exact ⟨f, hf1, by rw [hf2, hfid]⟩
        · obtain ⟨f, hf1, hf2⟩ := nameToIdGet_mem env key.raw fid hc
          exact ⟨f, hf1, by rw [hf2, hfid]⟩

/-- Witness for `payload_field_id_origin`: a non-numeric key resolved
through the snapshot produces a payload entry whose id (42) is a
snapshot field id. -/
theorem payload_field_id_origin_witness :
    (⟨"City", none⟩ : FieldKey).parsed =
        some (⟨42, "x", none⟩ : PayloadEntry).field_id ∨
      ∃ f ∈ (⟨some [⟨42, some "City", none⟩], some [], none⟩ : Env).snapshot.getD [],
        f.field_id = (⟨42, "x", none⟩ : PayloadEntry).field_id :=
  payload_field_id_origin ⟨some [⟨42, some "City", none⟩], some [], none⟩
    ⟨"City", none⟩ "x" ⟨42, "x", none⟩ (by decide)

/-- C8 counterexample: the caller-supplied key `"-5"` (numeric parse
-5) produces a payload entry whose `field_id` is -5, which is not a
positive integer — the claimed invariant fails. -/
theorem positive_field_id_counterexample :
    (processOne ⟨some [], some [], none⟩ ⟨"-5", some (-5)⟩ "x").contrib =
      Sum.inl ⟨-5, "x", none⟩ ∧ ¬(0 < (-5 : Int)) := by
  decide

/-- C9 (confirmed): when the initial snapshot fetch fails, the batch
does not abort: a non-numeric key becomes a per-field
`Field not found` error, and a numeric key is processed exactly as it
would be with any snapshot (its path never consults the snapshot); the
snapshot-fetch failure itself surfaces nowhere in the outcome. -/
theorem snapshot_failure_tolerated (md : Option (List CatalogField))
    (we : Option String) (snap' : Option (List SnapshotField))
    (key : FieldKey) (value : String) :
    (key.parsed = none →
        (processOne ⟨none, md, we⟩ key value).contrib =
          Sum.inr ⟨key.raw, notFoundMsg key.raw⟩) ∧
      (∀ n : Int, key.parsed = some n →
        processOne ⟨none, md, we⟩ key value = processOne ⟨snap', md, we⟩ key value) := by
  constructor
  · intro hp
    have hr : resolveFieldId ⟨none, md, we⟩ key = none := by
      simp [resolveFieldId, hp, searchLeadCustomFieldM, nameToIdGet]
    simp [processOne, hr, hp]
  · intro n hp
    have h1 : resolveFieldId ⟨none, md, we⟩ key = some n := by
      simp [resolveFieldId, hp]
    have h2 : resolveFieldId ⟨snap', md, we⟩ key = some n := by
      simp [resolveFieldId, hp]
    have hh : handleWithId ⟨none, md, we⟩ n key.raw value =
        handleWithId ⟨snap', md, we⟩ n key.raw value := rfl
    simp only [processOne, h1, h2, hp, hh]

/-- Witness for `snapshot_failure_tolerated`: with a failed snapshot
fetch, the non-numeric key `"City"` yields the `Field not found`
diagnostic, and the numeric key `"7"` is processed identically to an
environment whose snapshot fetch succeeded. -/
theorem snapshot_failure_tolerated_witness :
    (processOne ⟨none, some [], none⟩ ⟨"City", none⟩ "x").contrib =
        Sum.inr ⟨"City", notFoundMsg "City"⟩ ∧
      processOne ⟨none, some [], none⟩ ⟨"7", some 7⟩ "x" =
        processOne ⟨some [⟨9, some "Nine", none⟩], some [], none⟩ ⟨"7", some 7⟩ "x" :=
  ⟨(snapshot_failure_tolerated (some []) none (some [⟨9, some "Nine", none⟩])
      ⟨"City", none⟩ "x").1 rfl,
    (snapshot_failure_tolerated (some []) none (some [⟨9, some "Nine", none⟩])
      ⟨"7", some 7⟩ "x").2 7 rfl⟩

/-- The field id an entry finally uses once JS truthiness and the
numeric fallback are taken into account (`none` = the entry errors out
with `Field not found`). -/
def effectiveId (env : Env) (key : FieldKey) : Option Int :=
  match resolveFieldId env key with
  | some fid => if fid == 0 then key.parsed else some fid
  | none => key.parsed

/-- When the options lookup is unsuccessful, `handleWithId` falls
through to the raw value with no `enum_id` and records no error. -/
theorem handleWithId_not_success (env : Env) (fid : Int) (keyRaw value : String)
    (h : (getSelectFieldOptionsM env fid).success = false) :
    handleWithId env fid keyRaw value = Sum.inl ⟨fid, value, none⟩ := by
  simp only [handleWithId]
  rcases ho : (getSelectFieldOptionsM env fid).options with _ | opts <;>
    simp only [ho]
  rw [if_neg (by simp [h])]

/-- C10 (confirmed): whenever `getSelectFieldOptions` returns
unsuccessfully for the entry's field id — transport failure fetching
the catalog, id absent from the catalog, or a non-select type — the
field is treated as plain free text: the caller's raw value goes into
the payload as-is with no `enum_id`, and no error is recorded. -/
theorem free_text_on_lookup_failure (env : Env) (key : FieldKey) (value : String)
    (fid : Int) (h1 : effectiveId env key = some fid)
    (h2 : (getSelectFieldOptionsM env fid).success = false) :
    (processOne env key value).contrib = Sum.inl ⟨fid, value, none⟩ := by
  cases hr : resolveFieldId env key with
  | some g =>
    by_cases hz : (g == 0) = true
    · have hp : key.parsed = some fid := by simpa [effectiveId, hr, hz] using h1
      simp only [processOne, hr, hp]
      rw [if_pos hz]
      exact handleWithId_not_success env fid key.raw value h2
    · have hg : g = fid := by simpa [effectiveId, hr, hz] using h1
      simp only [processOne, hr]
      rw [if_neg hz, hg]
      exact handleWithId_not_success env fid key.raw value h2
  | none =>
    have hp : key.parsed = some fid := by simpa [effectiveId, hr] using h1
    simp only [processOne, hr, hp]
    exact handleWithId_not_success env fid key.raw value h2

/-- Witness for `free_text_on_lookup_failure`: the catalog fetch fails
(`metadata = none`) for field 501, so the raw value `"free text"` is
emitted as-is with no enum id and no error — even though 501 might be
an enumerated field. -/
theorem free_text_on_lookup_failure_witness :
    effectiveId ⟨some [], none, none⟩ ⟨"501", some 501⟩ = some 501 ∧
      (getSelectFieldOptionsM ⟨some [], none, none⟩ 501).success = false ∧
      (processOne ⟨some [], none, none⟩ ⟨"501", some 501⟩ "free text").contrib =
        Sum.inl ⟨501, "free text", none⟩ :=
  ⟨by decide, by decide,
    free_text_on_lookup_failure ⟨some [], none, none⟩ ⟨"501", some 501⟩
      "free text" 501 (by decide) (by decide)⟩
